import Mathlib

/-!
Shallow embedding of the CubismWebFramework parameter/expression core
(`CubismModel`, `CubismExpressionMotion`, `CubismMoc`), with JavaScript
numbers modelled by `ℚ` (all operations the claims exercise are exact),
JavaScript plain objects (`Record<K, V>`) modelled by insertion-ordered
association lists with distinct keys, and the JavaScript `undefined`/`NaN`
propagation that the part-index path can hit modelled by `JsNum`.
-/

namespace Cubism

/-- A JavaScript number that may be `NaN` (produced by arithmetic on
`undefined`, e.g. `partCount + this._notExistPartId.length` when the record
has no `length` property). -/
inductive JsNum where
  | nan : JsNum
  | num : ℚ → JsNum
deriving DecidableEq

/-- `n + v` where `v` is the result of a JS property access: an absent
property (`none`, i.e. `undefined`) or `NaN` poisons the sum to `NaN`. -/
def jsAddNatOpt (n : Nat) (v : Option JsNum) : JsNum :=
  match v with
  | none => JsNum.nan
  | some JsNum.nan => JsNum.nan
  | some (JsNum.num q) => JsNum.num ((n : ℚ) + q)

/-- JS object property read: first (only) binding of the key, if any. -/
def recordGet {κ α : Type} [DecidableEq κ] (r : List (κ × α)) (k : κ) : Option α :=
  (r.find? (fun e => decide (e.1 = k))).map Prod.snd

/-- JS `k in obj` membership test. -/
def recordHas {κ α : Type} [DecidableEq κ] (r : List (κ × α)) (k : κ) : Bool :=
  (r.find? (fun e => decide (e.1 = k))).isSome

/-- JS property assignment: update the existing binding in place (JS
objects keep insertion order and distinct keys, so the first binding is the
only one), else append a new binding at the end. -/
def recordSet {κ α : Type} [DecidableEq κ] (r : List (κ × α)) (k : κ) (v : α) : List (κ × α) :=
  match r with
  | [] => [(k, v)]
  | e :: rest => if e.1 = k then (k, v) :: rest else e :: recordSet rest k v

/-- A typed-array index: a JS number addresses a `Float32Array` slot iff it
is a canonical integer in `[0, len)`; other indices read `undefined` and
ignore writes. -/
def ratIndex (q : ℚ) (len : Nat) : Option Nat :=
  if q.den = 1 ∧ 0 ≤ q.num ∧ q.num.toNat < len then some q.num.toNat else none

/-- RGBA color (`CubismTextureColor`). -/
structure CubismTextureColor where
  R : ℚ
  G : ℚ
  B : ℚ
  A : ℚ
deriving DecidableEq

instance : Inhabited CubismTextureColor := ⟨⟨0, 0, 0, 0⟩⟩

/-- Per-drawable user color plus its "overridden by external caller" flag
(`DrawableColorData`). -/
structure DrawableColorData where
  isOverwritten : Bool
  Color : CubismTextureColor
deriving DecidableEq

instance : Inhabited DrawableColorData := ⟨⟨false, default⟩⟩

/-- The `CubismModel` state: the core arrays (`_model.parameters.*`,
`_model.parts.opacities`, `_model.drawables.*Colors`) together with the
wrapper's own fields (`_parameterIds`, `_savedParameters`, the shadow
("not exist") records and the color-override state). `parameterValues` is
the core value array, so `_model.parameters.count = parameterValues.length`,
and likewise `partOpacities` for `_model.parts.count`. -/
structure CubismModel where
  parameterIds : List String
  parameterValues : List ℚ
  parameterMaximumValues : List ℚ
  parameterMinimumValues : List ℚ
  savedParameters : List ℚ
  notExistParameterId : List (String × ℚ)
  notExistParameterValues : List (ℚ × ℚ)
  partIds : List String
  partOpacities : List ℚ
  notExistPartId : List (String × JsNum)
  notExistPartOpacities : List (JsNum × ℚ)
  isOverwrittenModelMultiplyColors : Bool
  isOverwrittenModelScreenColors : Bool
  userMultiplyColors : List DrawableColorData
  userScreenColors : List DrawableColorData
  drawableMultiplyColors : List ℚ
  drawableScreenColors : List ℚ
deriving DecidableEq

/-- `this._model.parameters.count`. -/
def parametersCount (m : CubismModel) : Nat := m.parameterValues.length

/-- `this._model.parts.count`. -/
def partsCount (m : CubismModel) : Nat := m.partOpacities.length

/-- `CubismModel.getParameterIndex`: linear scan of the real ids, then the
shadow record, else register a fresh shadow index
`parameters.count + Object.keys(_notExistParameterId).length` with value 0. -/
def getParameterIndex (m : CubismModel) (parameterId : String) : ℚ × CubismModel :=
  match List.findIdx? (fun s => decide (s = parameterId)) (m.parameterIds.take (parametersCount m)) with
  | some i => ((i : ℚ), m)
  | none =>
    match recordGet m.notExistParameterId parameterId with
    | some idx => (idx, m)
    | none =>
      let idx : ℚ := (parametersCount m : ℚ) + (m.notExistParameterId.length : ℚ)
      (idx,
        { m with
          notExistParameterId := recordSet m.notExistParameterId parameterId idx,
          notExistParameterValues := recordSet m.notExistParameterValues idx 0 })

/-- `CubismModel.getPartIndex`: linear scan of the real part ids, then the
shadow record; the fresh-index computation reads the `length` property of a
plain object (`this._notExistPartId.length`), which is `undefined`, so the
sum is `NaN`. -/
def getPartIndex (m : CubismModel) (partId : String) : JsNum × CubismModel :=
  match List.findIdx? (fun s => decide (s = partId)) (m.partIds.take (partsCount m)) with
  | some i => (JsNum.num i, m)
  | none =>
    match recordGet m.notExistPartId partId with
    | some idx => (idx, m)
    | none =>
      let idx := jsAddNatOpt (partsCount m) (recordGet m.notExistPartId "length")
      (idx,
        { m with
          notExistPartId := recordSet m.notExistPartId partId idx,
          notExistPartOpacities := recordSet m.notExistPartOpacities idx 0 })

/-- `CubismModel.getParameterValueByIndex`: shadow record first, else the
core value array. -/
def getParameterValueByIndex (m : CubismModel) (parameterIndex : ℚ) : ℚ :=
  if recordHas m.notExistParameterValues parameterIndex then
    (recordGet m.notExistParameterValues parameterIndex).getD 0
  else
    match ratIndex parameterIndex (parametersCount m) with
    | some i => m.parameterValues.getD i 0
    | none => 0

/-- `CubismModel.setParameterValueByIndex`: shadow writes interpolate
without clamping; real writes clamp `value` against the core max/min arrays
(a missing array entry compares `undefined`, so no clamp) and then either
replace (`weight == 1`) or interpolate from the stored value. -/
def setParameterValueByIndex (m : CubismModel) (parameterIndex : ℚ) (value : ℚ) (weight : ℚ) :
    CubismModel :=
  if recordHas m.notExistParameterValues parameterIndex then
    let old := (recordGet m.notExistParameterValues parameterIndex).getD 0
    let nv := if weight = 1 then value else old * (1 - weight) + value * weight
    { m with notExistParameterValues := recordSet m.notExistParameterValues parameterIndex nv }
  else
    match ratIndex parameterIndex (parametersCount m) with
    | none => m
    | some i =>
      let v1 :=
        match m.parameterMaximumValues.get? i with
        | some maxV => if maxV < value then maxV else value
        | none => value
      let v2 :=
        match m.parameterMinimumValues.get? i with
        | some minV => if minV > v1 then minV else v1
        | none => v1
      let old := m.parameterValues.getD i 0
      let nv := if weight = 1 then v2 else old * (1 - weight) + v2 * weight
      { m with parameterValues := m.parameterValues.set i nv }

/-- `CubismModel.addParameterValueByIndex` (the inner `setValue` uses the
default weight 1). -/
def addParameterValueByIndex (m : CubismModel) (parameterIndex : ℚ) (value weight : ℚ) :
    CubismModel :=
  setParameterValueByIndex m parameterIndex
    (getParameterValueByIndex m parameterIndex + value * weight) 1

/-- `CubismModel.multiplyParameterValueByIndex`. -/
def multiplyParameterValueByIndex (m : CubismModel) (parameterIndex : ℚ) (value weight : ℚ) :
    CubismModel :=
  setParameterValueByIndex m parameterIndex
    (getParameterValueByIndex m parameterIndex * (1 + (value - 1) * weight)) 1

/-- `CubismModel.getParameterValueById` (index resolution can register a
shadow entry, so the model state is threaded). -/
def getParameterValueById (m : CubismModel) (parameterId : String) : ℚ × CubismModel :=
  let r := getParameterIndex m parameterId
  (getParameterValueByIndex r.2 r.1, r.2)

/-- `CubismModel.saveParameters`: overwrite the saved slot when it exists,
else push. -/
def saveParameters (m : CubismModel) : CubismModel :=
  let n := parametersCount m
  let sp := (List.range n).foldl
    (fun saved i =>
      if i < saved.length then saved.set i (m.parameterValues.getD i 0)
      else saved ++ [m.parameterValues.getD i 0])
    m.savedParameters
  { m with savedParameters := sp }

/-- `CubismModel.loadParameters`: copy back `min(count, saved.length)`
leading entries. -/
def loadParameters (m : CubismModel) : CubismModel :=
  let n := min (parametersCount m) m.savedParameters.length
  let pv := (List.range n).foldl
    (fun vals i => vals.set i (m.savedParameters.getD i 0)) m.parameterValues
  { m with parameterValues := pv }

/-- `CubismModel.getOverwriteFlagForModelMultiplyColors`. -/
def getOverwriteFlagForModelMultiplyColors (m : CubismModel) : Bool :=
  m.isOverwrittenModelMultiplyColors

/-- `CubismModel.getOverwriteFlagForModelScreenColors`. -/
def getOverwriteFlagForModelScreenColors (m : CubismModel) : Bool :=
  m.isOverwrittenModelScreenColors

/-- `CubismModel.getOverwriteFlagForDrawableMultiplyColors`. -/
def getOverwriteFlagForDrawableMultiplyColors (m : CubismModel) (drawableindex : Nat) : Bool :=
  (m.userMultiplyColors.getD drawableindex default).isOverwritten

/-- `CubismModel.getOverwriteFlagForDrawableScreenColors`: the source reads
`this._userMultiplyColors[drawableindex].isOverwritten` here (not
`_userScreenColors`). -/
def getOverwriteFlagForDrawableScreenColors (m : CubismModel) (drawableindex : Nat) : Bool :=
  (m.userMultiplyColors.getD drawableindex default).isOverwritten

/-- `CubismModel.setOverwriteFlagForDrawableMultiplyColors`. -/
def setOverwriteFlagForDrawableMultiplyColors (m : CubismModel) (drawableindex : Nat)
    (value : Bool) : CubismModel :=
  let d := { m.userMultiplyColors.getD drawableindex default with isOverwritten := value }
  { m with userMultiplyColors := m.userMultiplyColors.set drawableindex d }

/-- `CubismModel.setOverwriteFlagForDrawableScreenColors`. -/
def setOverwriteFlagForDrawableScreenColors (m : CubismModel) (drawableindex : Nat)
    (value : Bool) : CubismModel :=
  let d := { m.userScreenColors.getD drawableindex default with isOverwritten := value }
  { m with userScreenColors := m.userScreenColors.set drawableindex d }

/-- `CubismModel.setScreenColorByRGBA`. -/
def setScreenColorByRGBA (m : CubismModel) (index : Nat) (r g b a : ℚ) : CubismModel :=
  let d := { m.userScreenColors.getD index default with Color := ⟨r, g, b, a⟩ }
  { m with userScreenColors := m.userScreenColors.set index d }

/-- `CubismModel.getDrawableScreenColor`: the core flat RGBA array at
`4 * drawableIndex`. -/
def getDrawableScreenColor (m : CubismModel) (drawableIndex : Nat) : CubismTextureColor :=
  { R := m.drawableScreenColors.getD (drawableIndex * 4) 0
    G := m.drawableScreenColors.getD (drawableIndex * 4 + 1) 0
    B := m.drawableScreenColors.getD (drawableIndex * 4 + 2) 0
    A := m.drawableScreenColors.getD (drawableIndex * 4 + 3) 0 }

/-- `CubismModel.getScreenColor`: the user color when the model-wide or the
per-drawable screen override flag reports true, else the core color. -/
def getScreenColor (m : CubismModel) (index : Nat) : CubismTextureColor :=
  if getOverwriteFlagForModelScreenColors m || getOverwriteFlagForDrawableScreenColors m index then
    (m.userScreenColors.getD index default).Color
  else
    getDrawableScreenColor m index

/-- `exp3.json` fade default (`DefaultFadeTime`). -/
def DefaultFadeTime : ℚ := 1

/-- `CubismExpressionMotion.DefaultAdditiveValue`. -/
def DefaultAdditiveValue : ℚ := 0

/-- `CubismExpressionMotion.DefaultMultiplyValue`. -/
def DefaultMultiplyValue : ℚ := 1

/-- `ExpressionBlendType`. -/
inductive ExpressionBlendType where
  | Additive : ExpressionBlendType
  | Multiply : ExpressionBlendType
  | Overwrite : ExpressionBlendType
deriving DecidableEq

/-- `ExpressionParameter`: one (id, operator, value) entry of an expression
asset. -/
structure ExpressionParameter where
  parameterId : String
  blendType : ExpressionBlendType
  value : ℚ
deriving DecidableEq

instance : Inhabited ExpressionParameter := ⟨⟨"", ExpressionBlendType.Additive, 0⟩⟩

/-- `ExpressionParameterValue` (the per-parameter blend-accumulator entry);
`parameterId` may be `null`. -/
structure ExpressionParameterValue where
  parameterId : Option String
  additiveValue : ℚ
  multiplyValue : ℚ
  overwriteValue : ℚ
deriving DecidableEq

instance : Inhabited ExpressionParameterValue := ⟨⟨none, 0, 1, 0⟩⟩

/-- `CubismMotionQueueEntry`: the playback-instance fields this code reads
and writes (`isAvailable`, `isStarted`, `startTime`, `fadeInStartTime`,
`endTime`). -/
structure CubismMotionQueueEntry where
  available : Bool
  started : Bool
  startTime : ℚ
  fadeInStartTime : ℚ
  endTime : ℚ
deriving DecidableEq

/-- `CubismExpressionMotion` state. `fadeInSeconds`, `fadeOutSeconds`,
`offsetSeconds` and `duration` live on the base class `ACubismMotion`,
which is not part of the given sources; they are modelled from the spec as
plain numeric fields (fade times default 1, duration ≤ 0 encodes
indefinite). -/
structure CubismExpressionMotion where
  parameters : List ExpressionParameter
  fadeWeight : ℚ
  fadeInSeconds : ℚ
  fadeOutSeconds : ℚ
  offsetSeconds : ℚ
  duration : ℚ
deriving DecidableEq

/-- `CubismExpressionMotion.calculateValue`:
`source * (1 - _fadeWeight) + destination * _fadeWeight`. -/
def calculateValue (motion : CubismExpressionMotion) (source destination : ℚ) : ℚ :=
  source * (1 - motion.fadeWeight) + destination * motion.fadeWeight

/-- The `(newAdditiveValue, newMultiplyValue, newOverwriteValue)` triple of
the `switch (blendType)` in `calculateExpressionParameters`, given the
asset value and the current model value. -/
def assetTriple (bt : ExpressionBlendType) (value cur : ℚ) : ℚ × ℚ × ℚ :=
  match bt with
  | ExpressionBlendType.Additive => (value, DefaultMultiplyValue, cur)
  | ExpressionBlendType.Multiply => (DefaultAdditiveValue, value, cur)
  | ExpressionBlendType.Overwrite => (DefaultAdditiveValue, DefaultMultiplyValue, value)

/-- One iteration of the accumulator loop of
`calculateExpressionParameters`: skip `null` ids; otherwise read the current
model value (this also assigns it to `overwriteValue` before any blending),
look the id up among the expression's own parameters, and either reset /
replace (`expressionIndex == 0`) or blend with `_fadeWeight`. -/
def calcExpEntry (motion : CubismExpressionMotion) (expressionIndex : ℤ)
    (model : CubismModel) (epv : ExpressionParameterValue) :
    CubismModel × ExpressionParameterValue :=
  match epv.parameterId with
  | none => (model, epv)
  | some pid =>
    let r := getParameterValueById model pid
    let cur := r.1
    let model1 := r.2
    let epv1 := { epv with overwriteValue := cur }
    match List.findIdx? (fun p => decide (p.parameterId = pid)) motion.parameters with
    | none =>
      if expressionIndex = 0 then
        (model1, { epv1 with
          additiveValue := DefaultAdditiveValue,
          multiplyValue := DefaultMultiplyValue,
          overwriteValue := cur })
      else
        (model1, { epv1 with
          additiveValue := calculateValue motion epv1.additiveValue DefaultAdditiveValue,
          multiplyValue := calculateValue motion epv1.multiplyValue DefaultMultiplyValue,
          overwriteValue := calculateValue motion epv1.overwriteValue cur })
    | some j =>
      let p := motion.parameters.getD j default
      let t := assetTriple p.blendType p.value cur
      if expressionIndex = 0 then
        (model1, { epv1 with
          additiveValue := t.1, multiplyValue := t.2.1, overwriteValue := t.2.2 })
      else
        (model1, { epv1 with
          additiveValue := epv1.additiveValue * (1 - motion.fadeWeight) + t.1 * motion.fadeWeight,
          multiplyValue := epv1.multiplyValue * (1 - motion.fadeWeight) + t.2.1 * motion.fadeWeight,
          overwriteValue :=
            epv1.overwriteValue * (1 - motion.fadeWeight) + t.2.2 * motion.fadeWeight })

/-- The accumulator loop, threading the model state (index resolution may
register shadow entries). -/
def calcExpLoop (motion : CubismExpressionMotion) (expressionIndex : ℤ) :
    CubismModel → List ExpressionParameterValue →
    CubismModel × List ExpressionParameterValue
  | model, [] => (model, [])
  | model, epv :: rest =>
    let r1 := calcExpEntry motion expressionIndex model epv
    let r2 := calcExpLoop motion expressionIndex r1.1 rest
    (r2.1, r1.2 :: r2.2)

/-- `CubismExpressionMotion.calculateExpressionParameters`. Returns the
motion (whose `_fadeWeight` was stored), the model, the queue entry and the
accumulator. `newFadeWeight` is modelled from the spec: the value returned
by `updateFadeWeight` (the shared motion-timing collaborator of
`ACubismMotion`, outside the given sources), supplied here as an input. -/
def calculateExpressionParameters (motion : CubismExpressionMotion) (model : CubismModel)
    (userTimeSeconds : ℚ) (motionQueueEntry : CubismMotionQueueEntry)
    (expressionParameterValues : List ExpressionParameterValue) (expressionIndex : ℤ)
    (newFadeWeight : ℚ) :
    CubismExpressionMotion × CubismModel × CubismMotionQueueEntry ×
      List ExpressionParameterValue :=
  if motionQueueEntry.available = false then
    (motion, model, motionQueueEntry, expressionParameterValues)
  else
    let mqe1 :=
      if motionQueueEntry.started = false then
        let s := { motionQueueEntry with
          started := true,
          startTime := userTimeSeconds - motion.offsetSeconds,
          fadeInStartTime := userTimeSeconds }
        if s.endTime < 0 then
          { s with endTime := if motion.duration ≤ 0 then -1 else s.startTime + motion.duration }
        else s
      else motionQueueEntry
    let motion1 := { motion with fadeWeight := newFadeWeight }
    let r := calcExpLoop motion1 expressionIndex model expressionParameterValues
    (motion1, r.1, mqe1, r.2)

/-- One parameter entry of the expression JSON
(`{Id, Value, Blend?}`; `Blend` is absent when the key is missing). -/
structure ExpressionParameterJson where
  Id : String
  Value : ℚ
  Blend : Option String
deriving DecidableEq

/-- The expression JSON record (`FadeInTime?`, `FadeOutTime?`,
`Parameters?`). -/
structure ExpressionJson where
  FadeInTime : Option ℚ
  FadeOutTime : Option ℚ
  Parameters : Option (List ExpressionParameterJson)
deriving DecidableEq

/-- The blend-operator classification of `CubismExpressionMotion.parse`:
`!param.Blend || param.Blend === 'Add'` (so a missing field or the falsy
empty string defaults), then the two recognized tags, then the defensive
default branch. -/
def parseBlend (b : Option String) : ExpressionBlendType :=
  if b = none ∨ b = some "" ∨ b = some "Add" then ExpressionBlendType.Additive
  else if b = some "Multiply" then ExpressionBlendType.Multiply
  else if b = some "Overwrite" then ExpressionBlendType.Overwrite
  else ExpressionBlendType.Additive

/-- `CubismExpressionMotion.parse`: bail out on a falsy json, set the fade
times (defaulting to `DefaultFadeTime`), and push one `ExpressionParameter`
per entry of `json.Parameters || []`. -/
def parse (motion : CubismExpressionMotion) (json : Option ExpressionJson) :
    CubismExpressionMotion :=
  match json with
  | none => motion
  | some j =>
    { motion with
      fadeInSeconds := j.FadeInTime.getD DefaultFadeTime,
      fadeOutSeconds := j.FadeOutTime.getD DefaultFadeTime,
      parameters := (j.Parameters.getD []).foldl
        (fun ps p => ps ++ [⟨p.Id, parseBlend p.Blend, p.Value⟩]) motion.parameters }

/-- The external Live2D core (`Live2DCubismCore`), an out-of-scope
collaborator: its consistency predicate (returning the integer the source
compares with 1), its moc constructor (`null` on failure, modelled as
`none`), and its version query. Moc handles are opaque naturals, byte
buffers are lists of bytes. -/
structure CoreEnv where
  coreHasMocConsistency : List Nat → ℤ
  coreMocFromArrayBuffer : List Nat → Option Nat
  coreGetMocVersion : Nat → List Nat → ℚ

/-- `CubismMoc` state. -/
structure CubismMoc where
  moc : Nat
  modelCount : ℤ
  mocVersion : ℚ
deriving DecidableEq

/-- `CubismMoc.hasMocConsistency`: true iff the core returns exactly 1. -/
def hasMocConsistency (env : CoreEnv) (mocBytes : List Nat) : Bool :=
  if env.coreHasMocConsistency mocBytes = 1 then true else false

/-- `CubismMoc.getMocVersion`. -/
def CubismMoc.getMocVersion (c : CubismMoc) : ℚ := c.mocVersion

/-- `CubismMoc.create`: optional consistency check (throwing
`Inconsistent MOC3.` when it fails), then core moc construction (throwing
`Failed to CubismMoc.create().` on a falsy result), recording the version
queried from the core on success. -/
def CubismMoc.create (env : CoreEnv) (mocBytes : List Nat)
    (shouldCheckMocConsistency : Bool) : Except String CubismMoc :=
  if shouldCheckMocConsistency && !hasMocConsistency env mocBytes then
    Except.error "Inconsistent MOC3."
  else
    match env.coreMocFromArrayBuffer mocBytes with
    | some moc =>
      Except.ok { moc := moc, modelCount := 0,
                  mocVersion := env.coreGetMocVersion moc mocBytes }
    | none => Except.error "Failed to CubismMoc.create()."

/-! ### Supporting definitions and lemmas for the theorems -/

/-- Clamp of `x` to `[lo, hi]`, as the spec words "clamps it to
[minimum, maximum]". -/
def specClamp (lo hi x : ℚ) : ℚ := max lo (min hi x)

/-- A small but fully populated concrete model used by concrete theorems:
one real parameter `P` with value 0, range `[-1, 1]`, two real parts and one
drawable whose core screen color is `(1/4, 1/2, 3/4, 1)`. -/
def demoModel : CubismModel :=
  { parameterIds := ["P"], parameterValues := [0], parameterMaximumValues := [1],
    parameterMinimumValues := [-1], savedParameters := [],
    notExistParameterId := [], notExistParameterValues := [],
    partIds := ["A0", "A1"], partOpacities := [1, 1],
    notExistPartId := [], notExistPartOpacities := [],
    isOverwrittenModelMultiplyColors := false, isOverwrittenModelScreenColors := false,
    userMultiplyColors := [⟨false, ⟨1, 1, 1, 1⟩⟩], userScreenColors := [⟨false, ⟨0, 0, 0, 1⟩⟩],
    drawableMultiplyColors := [1, 1, 1, 1], drawableScreenColors := [1/4, 1/2, 3/4, 1] }

lemma recordGet_set_self {κ α : Type} [DecidableEq κ] (r : List (κ × α)) (k : κ) (v : α) :
    recordGet (recordSet r k v) k = some v := by
  induction r with
  | nil => simp [recordSet, recordGet]
  | cons e rest ih =>
    by_cases h : e.1 = k
    · simp [recordSet, recordGet, h]
    · simp [recordSet, recordGet, h] at ih ⊢
      exact ih

lemma recordHas_eq_isSome_recordGet {κ α : Type} [DecidableEq κ] (r : List (κ × α)) (k : κ) :
    recordHas r k = (recordGet r k).isSome := by
  simp [recordHas, recordGet]

lemma recordHas_set_self {κ α : Type} [DecidableEq κ] (r : List (κ × α)) (k : κ) (v : α) :
    recordHas (recordSet r k v) k = true := by
  rw [recordHas_eq_isSome_recordGet, recordGet_set_self]
  rfl

/-- The two comparison steps of `setParameterValueByIndex` compute exactly
the `[lo, hi]` clamp. -/
lemma clamp_steps (lo hi x : ℚ) :
    (if lo > (if hi < x then hi else x) then lo else (if hi < x then hi else x)) =
      specClamp lo hi x := by
  simp only [specClamp, max_def, min_def]
  split_ifs <;> linarith

/-- `ratIndex` on a natural-number index. -/
lemma ratIndex_coe (i len : Nat) :
    ratIndex (i : ℚ) len = if i < len then some i else none := by
  simp [ratIndex, Rat.den_natCast, Rat.num_natCast]

lemma foldl_push {α β : Type} (f : α → β) (l : List α) (acc : List β) :
    l.foldl (fun ps p => ps ++ [f p]) acc = acc ++ l.map f := by
  induction l generalizing acc with
  | nil => simp
  | cons a l ih => simp [List.foldl_cons, ih]

/-! ### Claim theorems -/

/-- C4 (code evaluated at the failing input): with two real parts and no
shadow entries yet, resolving the unknown part id `"B0"` yields the index
`NaN` (`parts.count + undefined`), and resolving a second, distinct unknown
id `"B1"` afterwards yields `NaN` again — not the contiguous distinct
indices 2 and 3 the claim describes. -/
theorem part_shadow_index_nan :
    (getPartIndex demoModel "B0").1 = JsNum.nan ∧
    (getPartIndex ((getPartIndex demoModel "B0").2) "B1").1 = JsNum.nan ∧
    (getPartIndex ((getPartIndex demoModel "B0").2) "B1").1 =
      (getPartIndex demoModel "B0").1 := by
  decide

/-- C5 (code evaluated at the failing input): with the model-wide screen
override flag false and the drawable's multiply override flag false, setting
the drawable's screen override flag to true does not make `getScreenColor`
return the externally set user screen color: the per-drawable screen flag
getter reads `_userMultiplyColors[i].isOverwritten`, so `getScreenColor`
still returns the core model's drawable screen color. -/
theorem screen_color_flag_bug :
    getOverwriteFlagForModelScreenColors
        (setOverwriteFlagForDrawableScreenColors
          (setScreenColorByRGBA demoModel 0 (9/10) (9/10) (9/10) 1) 0 true) = false ∧
    getOverwriteFlagForDrawableScreenColors
        (setOverwriteFlagForDrawableScreenColors
          (setScreenColorByRGBA demoModel 0 (9/10) (9/10) (9/10) 1) 0 true) 0 = false ∧
    getScreenColor
        (setOverwriteFlagForDrawableScreenColors
          (setScreenColorByRGBA demoModel 0 (9/10) (9/10) (9/10) 1) 0 true) 0 =
      getDrawableScreenColor
        (setOverwriteFlagForDrawableScreenColors
          (setScreenColorByRGBA demoModel 0 (9/10) (9/10) (9/10) 1) 0 true) 0 ∧
    getScreenColor
        (setOverwriteFlagForDrawableScreenColors
          (setScreenColorByRGBA demoModel 0 (9/10) (9/10) (9/10) 1) 0 true) 0 ≠
      ((setOverwriteFlagForDrawableScreenColors
          (setScreenColorByRGBA demoModel 0 (9/10) (9/10) (9/10) 1) 0
          true).userScreenColors.getD 0 default).Color := by
  refine ⟨rfl, rfl, rfl, ?_⟩
  norm_num [getScreenColor, setOverwriteFlagForDrawableScreenColors, setScreenColorByRGBA,
    demoModel, getOverwriteFlagForModelScreenColors, getOverwriteFlagForDrawableScreenColors,
    getDrawableScreenColor, CubismTextureColor.mk.injEq, List.getD]

/-- C7: when the playback instance is not available,
`calculateExpressionParameters` returns every piece of state — the motion
(including its stored fade weight), the model, the queue entry and every
accumulator entry — unchanged. -/
theorem unavailable_is_noop (motion : CubismExpressionMotion) (model : CubismModel)
    (uts : ℚ) (mqe : CubismMotionQueueEntry) (epvs : List ExpressionParameterValue)
    (ei : ℤ) (fw : ℚ) (h : mqe.available = false) :
    calculateExpressionParameters motion model uts mqe epvs ei fw =
      (motion, model, mqe, epvs) := by
  simp [calculateExpressionParameters, h]

/-- Witness for C7 at a concrete unavailable queue entry. -/
theorem unavailable_is_noop_witness :
    calculateExpressionParameters
        ⟨[], 0, 1, 1, 0, -1⟩ demoModel 0 ⟨false, false, 0, 0, -1⟩ [default] 0 (1/2) =
      (⟨[], 0, 1, 1, 0, -1⟩, demoModel, ⟨false, false, 0, 0, -1⟩, [default]) :=
  unavailable_is_noop ⟨[], 0, 1, 1, 0, -1⟩ demoModel 0 ⟨false, false, 0, 0, -1⟩
    [default] 0 (1/2) rfl

/-- C8: `parse` turns every entry of `json.Parameters` into an
`ExpressionParameter` whose operator is classified by `parseBlend`, and
`parseBlend` maps exactly `"Multiply"` to Multiply, exactly `"Overwrite"`
to Overwrite, and everything else — an absent field, `"Add"`, or any other
string — to Additive; no input is rejected. -/
theorem parse_blend_defaults :
    (∀ (motion : CubismExpressionMotion) (j : ExpressionJson),
      (parse motion (some j)).parameters =
        motion.parameters ++ (j.Parameters.getD []).map
          (fun p => ⟨p.Id, parseBlend p.Blend, p.Value⟩)) ∧
    ∀ b : Option String, parseBlend b =
      if b = some "Multiply" then ExpressionBlendType.Multiply
      else if b = some "Overwrite" then ExpressionBlendType.Overwrite
      else ExpressionBlendType.Additive := by
  constructor
  · intro motion j
    simp [parse, foldl_push]
  · intro b
    rcases b with _ | s
    · simp [parseBlend]
    · simp only [parseBlend]
      split_ifs <;> simp_all

/-- C9: `CubismMoc.create(bytes, true)` fails with the load error
`Inconsistent MOC3.` (constructing no `CubismMoc`) whenever
`hasMocConsistency` is false; when the check passes or is skipped and the
core moc construction succeeds, it returns a `CubismMoc` whose
`getMocVersion` is the version the core reported at load. -/
theorem create_moc_consistency (env : CoreEnv) (bytes : List Nat) :
    (hasMocConsistency env bytes = false →
      CubismMoc.create env bytes true = Except.error "Inconsistent MOC3.") ∧
    ∀ (shouldCheck : Bool) (moc : Nat),
      (shouldCheck = false ∨ hasMocConsistency env bytes = true) →
      env.coreMocFromArrayBuffer bytes = some moc →
      ∃ c : CubismMoc, CubismMoc.create env bytes shouldCheck = Except.ok c ∧
        c.getMocVersion = env.coreGetMocVersion moc bytes := by
  constructor
  · intro h
    simp [CubismMoc.create, h]
  · intro shouldCheck moc hok hsome
    refine ⟨⟨moc, 0, env.coreGetMocVersion moc bytes⟩, ?_, rfl⟩
    rcases hok with h | h <;>
      simp [CubismMoc.create, h, hsome]

/-- A core environment whose consistency check fails. -/
def envBad : CoreEnv := ⟨fun _ => 0, fun _ => some 7, fun _ _ => 42⟩

/-- A core environment whose consistency check succeeds. -/
def envGood : CoreEnv := ⟨fun _ => 1, fun _ => some 7, fun _ _ => 42⟩

/-- Witness for C9 at concrete environments and bytes. -/
theorem create_moc_consistency_witness :
    CubismMoc.create envBad [3] true = Except.error "Inconsistent MOC3." ∧
    ∃ c : CubismMoc, CubismMoc.create envGood [3] true = Except.ok c ∧
      c.getMocVersion = envGood.coreGetMocVersion 7 [3] :=
  ⟨(create_moc_consistency envBad [3]).1 (by decide),
   (create_moc_consistency envGood [3]).2 true 7 (Or.inr (by decide)) rfl⟩

/-- C1 (counterexample): real parameter 0 of `demoModel` has stored value
0 and range `[-1, 1]`; writing value 5 with weight 1/2 stores 1/2 — the
code clamps the incoming value to 1 before interpolating — whereas clamping
the interpolated result `0*(1-1/2) + 5*(1/2) = 5/2`, as the claim states,
would store 1. -/
theorem setParameter_interp_counterexample :
    (setParameterValueByIndex demoModel 0 5 (1/2)).parameterValues.getD 0 0 = 1/2 ∧
    (setParameterValueByIndex demoModel 0 5 (1/2)).parameterValues.getD 0 0 ≠
      specClamp (-1) 1 (demoModel.parameterValues.getD 0 0 * (1 - 1/2) + 5 * (1/2)) := by
  constructor
  · norm_num [setParameterValueByIndex, demoModel, recordHas, recordGet, ratIndex,
      parametersCount, List.getD]
  · norm_num [setParameterValueByIndex, demoModel, recordHas, recordGet, ratIndex,
      parametersCount, List.getD, specClamp, min_def, max_def]

/-- C1 (amended): a real-index write stores the value clamped to
`[minimum, maximum]` when `weight = 1`, and
`stored*(1-weight) + clamp(value)*weight` — the clamp applied to the value
before interpolation, the interpolated result unclamped — when
`weight ≠ 1`; a shadow-index write stores the plain replacement or
interpolation with no clamping at all. -/
theorem setParameter_value_semantics (m : CubismModel) (i : Nat) (value weight : ℚ)
    (hi : i < parametersCount m)
    (hmax : i < m.parameterMaximumValues.length)
    (hmin : i < m.parameterMinimumValues.length)
    (hshadow : recordHas m.notExistParameterValues ((i : Nat) : ℚ) = false) :
    ((setParameterValueByIndex m ((i : Nat) : ℚ) value weight).parameterValues.getD i 0 =
      (if weight = 1 then
        specClamp (m.parameterMinimumValues.getD i 0) (m.parameterMaximumValues.getD i 0) value
      else
        m.parameterValues.getD i 0 * (1 - weight) +
          specClamp (m.parameterMinimumValues.getD i 0) (m.parameterMaximumValues.getD i 0)
            value * weight)) ∧
    ∀ (idx v w : ℚ), recordHas m.notExistParameterValues idx = true →
      getParameterValueByIndex (setParameterValueByIndex m idx v w) idx =
        (if w = 1 then v else getParameterValueByIndex m idx * (1 - w) + v * w) := by
  constructor
  · have hmax1 : m.parameterMaximumValues.get? i = some (m.parameterMaximumValues.getD i 0) := by
      rw [List.get?_eq_getElem?, List.getElem?_eq_getElem hmax, List.getD_eq_getElem _ _ hmax]
    have hmin1 : m.parameterMinimumValues.get? i = some (m.parameterMinimumValues.getD i 0) := by
      rw [List.get?_eq_getElem?, List.getElem?_eq_getElem hmin, List.getD_eq_getElem _ _ hmin]
    have hset : ∀ nv : ℚ, (m.parameterValues.set i nv).getD i 0 = nv := by
      intro nv
      rw [List.getD_eq_getElem _ _ (by simpa [parametersCount] using hi)]
      simp
    simp only [setParameterValueByIndex, hshadow, Bool.false_eq_true, if_false,
      ratIndex_coe, hi, if_pos, hmax1, hmin1]
    rw [hset, ← clamp_steps]
  · intro idx v w h
    have hget : getParameterValueByIndex m idx = (recordGet m.notExistParameterValues idx).getD 0 := by
      simp [getParameterValueByIndex, h]
    simp only [setParameterValueByIndex, h, if_true]
    simp only [getParameterValueByIndex, recordHas_set_self, if_true, recordGet_set_self,
      Option.getD_some, hget]
    simp [h]

/-- `demoModel` extended with one registered shadow parameter
(`"S"` at index 1 with stored value 3). -/
def demoShadowModel : CubismModel :=
  { demoModel with
    notExistParameterId := [("S", 1)],
    notExistParameterValues := [(1, 3)] }

/-- Witness for C1's amended theorem at a real write and a shadow write. -/
theorem setParameter_value_semantics_witness :
    ((setParameterValueByIndex demoShadowModel ((0 : Nat) : ℚ) 5 1).parameterValues.getD 0 0 =
      (if (1 : ℚ) = 1 then
        specClamp (demoShadowModel.parameterMinimumValues.getD 0 0)
          (demoShadowModel.parameterMaximumValues.getD 0 0) 5
      else
        demoShadowModel.parameterValues.getD 0 0 * (1 - 1) +
          specClamp (demoShadowModel.parameterMinimumValues.getD 0 0)
            (demoShadowModel.parameterMaximumValues.getD 0 0) 5 * 1)) ∧
    getParameterValueByIndex (setParameterValueByIndex demoShadowModel 1 7 (1/2)) 1 =
      (if (1/2 : ℚ) = 1 then 7
       else getParameterValueByIndex demoShadowModel 1 * (1 - 1/2) + 7 * (1/2)) :=
  ⟨(setParameter_value_semantics demoShadowModel 0 5 1 (by decide) (by decide) (by decide)
      (by decide)).1,
   (setParameter_value_semantics demoShadowModel 0 5 1 (by decide) (by decide) (by decide)
      (by decide)).2 1 7 (1/2) (by decide)⟩

/-- One write call against the parameter store, for C6's arbitrary write
sequences. -/
inductive ParamOp where
  | setOp (index : Nat) (value weight : ℚ)
  | addOp (index : Nat) (value weight : ℚ)
  | mulOp (index : Nat) (value weight : ℚ)
deriving DecidableEq

/-- The index a `ParamOp` writes to. -/
def ParamOp.index : ParamOp → Nat
  | ParamOp.setOp i _ _ => i
  | ParamOp.addOp i _ _ => i
  | ParamOp.mulOp i _ _ => i

/-- Run one write call. -/
def applyParamOp (m : CubismModel) : ParamOp → CubismModel
  | ParamOp.setOp i v w => setParameterValueByIndex m ((i : Nat) : ℚ) v w
  | ParamOp.addOp i v w => addParameterValueByIndex m ((i : Nat) : ℚ) v w
  | ParamOp.mulOp i v w => multiplyParameterValueByIndex m ((i : Nat) : ℚ) v w

/-- Run a sequence of write calls. -/
def applyParamOps (ops : List ParamOp) (m : CubismModel) : CubismModel :=
  ops.foldl applyParamOp m

lemma range_foldl_save (g : Nat → ℚ) (saved : List ℚ) : ∀ n : Nat,
    (List.range n).foldl
      (fun s i => if i < s.length then s.set i (g i) else s ++ [g i]) saved =
    ((List.range n).map g) ++ saved.drop n := by
  intro n
  induction n with
  | zero => simp
  | succ n ih =>
    rw [List.range_succ, List.foldl_append, ih, List.foldl_cons, List.foldl_nil,
      List.map_append, List.map_cons, List.map_nil]
    by_cases hn : n < saved.length
    · have hlen : (List.map g (List.range n)).length = n := by simp
      have hcons : saved.drop n = saved.getD n 0 :: saved.drop (n + 1) := by
        rw [List.getD_eq_getElem _ _ hn]
        exact List.drop_eq_getElem_cons hn
      rw [if_pos]
      · rw [hcons, List.set_append_right _ _ (by omega)]
        rw [hlen, Nat.sub_self, List.set_cons_zero, List.append_assoc]
        simp
      · rw [List.length_append, hlen, hcons]
        simp
    · have hdrop : saved.drop n = [] := List.drop_eq_nil_of_le (by omega)
      have hdrop1 : saved.drop (n + 1) = [] := List.drop_eq_nil_of_le (by omega)
      rw [hdrop, hdrop1, if_neg]
      · simp
      · simp

lemma range_foldl_set (g : Nat → ℚ) (vals : List ℚ) : ∀ n : Nat, n ≤ vals.length →
    (List.range n).foldl (fun vs i => vs.set i (g i)) vals =
    ((List.range n).map g) ++ vals.drop n := by
  intro n
  induction n with
  | zero => simp
  | succ n ih =>
    intro hn
    rw [List.range_succ, List.foldl_append, ih (by omega), List.foldl_cons, List.foldl_nil,
      List.map_append, List.map_cons, List.map_nil]
    have hn1 : n < vals.length := by omega
    have hlen : (List.map g (List.range n)).length = n := by simp
    have hcons : vals.drop n = vals.getD n 0 :: vals.drop (n + 1) := by
      rw [List.getD_eq_getElem _ _ hn1]
      exact List.drop_eq_getElem_cons hn1
    rw [hcons, List.set_append_right _ _ (by omega), hlen, Nat.sub_self,
      List.set_cons_zero, List.append_assoc]
    simp

lemma getD_range_map (l : List ℚ) :
    (List.range l.length).map (fun i => l.getD i 0) = l := by
  induction l with
  | nil => simp
  | cons a l ih =>
    rw [List.length_cons, List.range_succ_eq_map, List.map_cons, List.map_map]
    have h1 : (a :: l).getD 0 0 = a := rfl
    have h2 : ((fun i => (a :: l).getD i 0) ∘ Nat.succ) = fun i => l.getD i 0 := by
      funext i
      rfl
    rw [h1, h2, ih]

/-- `saveParameters` leaves everything but `savedParameters` alone and
overwrites the leading `count` saved slots with the current values. -/
lemma saveParameters_spec (m : CubismModel) :
    saveParameters m =
      { m with savedParameters :=
          m.parameterValues ++ m.savedParameters.drop (parametersCount m) } := by
  have h := range_foldl_save (fun i => m.parameterValues.getD i 0) m.savedParameters
    (parametersCount m)
  simp only [parametersCount] at h
  rw [getD_range_map] at h
  simp only [saveParameters, parametersCount]
  rw [h]

/-- A write call at a real, non-shadowed index touches only
`parameterValues`, preserving its length. -/
lemma applyParamOp_real (m : CubismModel) (op : ParamOp)
    (h1 : op.index < parametersCount m)
    (h2 : recordHas m.notExistParameterValues ((op.index : Nat) : ℚ) = false) :
    (applyParamOp m op).parameterValues.length = m.parameterValues.length ∧
    (applyParamOp m op).savedParameters = m.savedParameters ∧
    (applyParamOp m op).notExistParameterValues = m.notExistParameterValues := by
  have hset : ∀ v w : ℚ,
      (setParameterValueByIndex m ((op.index : Nat) : ℚ) v w).parameterValues.length =
        m.parameterValues.length ∧
      (setParameterValueByIndex m ((op.index : Nat) : ℚ) v w).savedParameters =
        m.savedParameters ∧
      (setParameterValueByIndex m ((op.index : Nat) : ℚ) v w).notExistParameterValues =
        m.notExistParameterValues := by
    intro v w
    simp only [setParameterValueByIndex, h2, Bool.false_eq_true, if_false, ratIndex_coe, h1,
      if_pos]
    simp
  cases op with
  | setOp i v w => exact hset v w
  | addOp i v w => exact hset _ _
  | mulOp i v w => exact hset _ _

/-- A sequence of write calls at real, non-shadowed indices touches only
`parameterValues`, preserving its length. -/
lemma applyParamOps_real (ops : List ParamOp) : ∀ m : CubismModel,
    (∀ op ∈ ops, op.index < parametersCount m ∧
      recordHas m.notExistParameterValues ((op.index : Nat) : ℚ) = false) →
    (applyParamOps ops m).parameterValues.length = m.parameterValues.length ∧
    (applyParamOps ops m).savedParameters = m.savedParameters ∧
    (applyParamOps ops m).notExistParameterValues = m.notExistParameterValues := by
  induction ops with
  | nil => intro m _; exact ⟨rfl, rfl, rfl⟩
  | cons op ops ih =>
    intro m hops
    obtain ⟨hlen, hsaved, hshadow⟩ :=
      applyParamOp_real m op (hops op (by simp)).1 (hops op (by simp)).2
    have hops1 : ∀ o ∈ ops, o.index < parametersCount (applyParamOp m op) ∧
        recordHas (applyParamOp m op).notExistParameterValues ((o.index : Nat) : ℚ) = false := by
      intro o ho
      refine ⟨?_, ?_⟩
      · simpa [parametersCount, hlen] using (hops o (by simp [ho])).1
      · rw [hshadow]
        exact (hops o (by simp [ho])).2
    obtain ⟨ihlen, ihsaved, ihshadow⟩ := ih (applyParamOp m op) hops1
    refine ⟨?_, ?_, ?_⟩
    · rw [show applyParamOps (op :: ops) m = applyParamOps ops (applyParamOp m op) from rfl,
        ihlen, hlen]
    · rw [show applyParamOps (op :: ops) m = applyParamOps ops (applyParamOp m op) from rfl,
        ihsaved, hsaved]
    · rw [show applyParamOps (op :: ops) m = applyParamOps ops (applyParamOp m op) from rfl,
        ihshadow, hshadow]

/-- C6: after `saveParameters`, any sequence of `set`/`add`/`multiply`
writes at real (non-shadow) indices followed by `loadParameters` restores
every real parameter value to its snapshotted value; shadow values are
untouched by `saveParameters` and by `loadParameters` (neither snapshotted
nor restored). -/
theorem save_load_roundtrip (m : CubismModel) (ops : List ParamOp)
    (hops : ∀ op ∈ ops, op.index < parametersCount m ∧
      recordHas m.notExistParameterValues ((op.index : Nat) : ℚ) = false) :
    (loadParameters (applyParamOps ops (saveParameters m))).parameterValues =
      m.parameterValues ∧
    (loadParameters (applyParamOps ops (saveParameters m))).notExistParameterValues =
      (applyParamOps ops (saveParameters m)).notExistParameterValues ∧
    (saveParameters m).notExistParameterValues = m.notExistParameterValues := by
  have hsave := saveParameters_spec m
  have hops1 : ∀ op ∈ ops, op.index < parametersCount (saveParameters m) ∧
      recordHas (saveParameters m).notExistParameterValues ((op.index : Nat) : ℚ) = false := by
    intro op ho
    rw [hsave]
    exact hops op ho
  obtain ⟨hlen, hsaved, hshadow⟩ := applyParamOps_real ops (saveParameters m) hops1
  set m2 := applyParamOps ops (saveParameters m) with hm2
  have hsaved2 : m2.savedParameters =
      m.parameterValues ++ m.savedParameters.drop (parametersCount m) := by
    rw [hsaved, hsave]
  have hlen2 : m2.parameterValues.length = m.parameterValues.length := by
    rw [hlen, hsave]
  have hslen : parametersCount m ≤ m2.savedParameters.length := by
    rw [hsaved2, List.length_append]
    simp [parametersCount]
  have hn : min (parametersCount m2) m2.savedParameters.length = parametersCount m := by
    have : parametersCount m2 = parametersCount m := by
      simp only [parametersCount, hlen2]
    rw [this]
    exact Nat.min_eq_left hslen
  refine ⟨?_, ?_, ?_⟩
  · have hload := range_foldl_set (fun i => m2.savedParameters.getD i 0) m2.parameterValues
      (min (parametersCount m2) m2.savedParameters.length) (by simp [parametersCount])
    beta_reduce at hload
    rw [hn] at hload
    simp only [loadParameters, hn]
    rw [hload]
    have hdrop : m2.parameterValues.drop (parametersCount m) = [] :=
      List.drop_eq_nil_of_le (by rw [hlen2]; exact le_of_eq rfl)
    rw [hdrop, List.append_nil]
    have hmap : (List.range (parametersCount m)).map (fun i => m2.savedParameters.getD i 0) =
        (List.range (parametersCount m)).map (fun i => m.parameterValues.getD i 0) := by
      apply List.map_congr_left
      intro i hi
      rw [List.mem_range] at hi
      rw [hsaved2]
      have hi2 : i < m.parameterValues.length := hi
      rw [List.getD_eq_getElem _ _ (by rw [List.length_append]; omega),
        List.getElem_append_left hi2, List.getD_eq_getElem _ _ hi2]
    rw [hmap]
    have hfin := getD_range_map m.parameterValues
    simpa [parametersCount] using hfin
  · simp only [loadParameters]
  · rw [hsave]

/-- Witness for C6: one parameter, snapshot, a set/add/multiply burst, then
restore. -/
theorem save_load_roundtrip_witness :
    (loadParameters (applyParamOps
        [ParamOp.setOp 0 5 1, ParamOp.addOp 0 2 (1/2), ParamOp.mulOp 0 3 1]
        (saveParameters demoShadowModel))).parameterValues =
      demoShadowModel.parameterValues ∧
    (loadParameters (applyParamOps
        [ParamOp.setOp 0 5 1, ParamOp.addOp 0 2 (1/2), ParamOp.mulOp 0 3 1]
        (saveParameters demoShadowModel))).notExistParameterValues =
      (applyParamOps
        [ParamOp.setOp 0 5 1, ParamOp.addOp 0 2 (1/2), ParamOp.mulOp 0 3 1]
        (saveParameters demoShadowModel)).notExistParameterValues ∧
    (saveParameters demoShadowModel).notExistParameterValues =
      demoShadowModel.notExistParameterValues :=
  save_load_roundtrip demoShadowModel
    [ParamOp.setOp 0 5 1, ParamOp.addOp 0 2 (1/2), ParamOp.mulOp 0 3 1]
    (by intro op hop; fin_cases hop <;> exact ⟨by decide, by decide⟩)

/-- `getParameterValueById` resolves this id without registering a new
shadow entry (the id is a real parameter or an already-registered shadow),
so the read leaves the model untouched. -/
def resolvesPure (m : CubismModel) (parameterId : String) : Prop :=
  (getParameterIndex m parameterId).2 = m

instance (m : CubismModel) (parameterId : String) : Decidable (resolvesPure m parameterId) :=
  inferInstanceAs (Decidable ((getParameterIndex m parameterId).2 = m))

lemma calcExpEntry_none (motion : CubismExpressionMotion) (ei : ℤ) (model : CubismModel)
    (epv : ExpressionParameterValue) (h : epv.parameterId = none) :
    calcExpEntry motion ei model epv = (model, epv) := by
  simp [calcExpEntry, h]

lemma calcExpEntry_fst (motion : CubismExpressionMotion) (ei : ℤ) (model : CubismModel)
    (epv : ExpressionParameterValue) (pid : String) (hpid : epv.parameterId = some pid)
    (hres : resolvesPure model pid) :
    (calcExpEntry motion ei model epv).1 = model := by
  have h2 : (getParameterValueById model pid).2 = model := by
    simp only [getParameterValueById]
    exact hres
  simp only [calcExpEntry, hpid]
  cases hfind : List.findIdx? (fun p => decide (p.parameterId = pid)) motion.parameters <;>
    split_ifs <;> simp [h2]

lemma calcExpLoop_pure (motion : CubismExpressionMotion) (ei : ℤ) (model : CubismModel)
    (epvs : List ExpressionParameterValue)
    (h : ∀ epv ∈ epvs, ∀ q, epv.parameterId = some q → resolvesPure model q) :
    calcExpLoop motion ei model epvs =
      (model, epvs.map (fun epv => (calcExpEntry motion ei model epv).2)) := by
  induction epvs with
  | nil => simp [calcExpLoop]
  | cons epv rest ih =>
    have hfst : (calcExpEntry motion ei model epv).1 = model := by
      cases hp : epv.parameterId with
      | none => simp [calcExpEntry_none motion ei model epv hp]
      | some pid => exact calcExpEntry_fst motion ei model epv pid hp (h epv (by simp) pid hp)
    have ih2 := ih (fun e he q hq => h e (List.mem_cons_of_mem _ he) q hq)
    simp only [calcExpLoop, hfst, ih2, List.map_cons]

lemma getD_map_of_lt {α β : Type} (f : α → β) :
    ∀ (l : List α) (i : Nat), i < l.length → ∀ (d : β) (d2 : α),
      (l.map f).getD i d = f (l.getD i d2) := by
  intro l
  induction l with
  | nil => intro i hi; simp at hi
  | cons a l ih =>
    intro i hi d d2
    cases i with
    | zero => rfl
    | succ n =>
      simp only [List.map_cons, List.getD_cons_succ]
      exact ih n (by simpa using hi) d d2

/-- With an available entry and ids that resolve without mutation, the
accumulator output at slot `i` is the per-entry computation against the
unchanged model, with the stored fade weight already updated. -/
lemma calculateExpressionParameters_getD (motion : CubismExpressionMotion)
    (model : CubismModel) (uts : ℚ) (mqe : CubismMotionQueueEntry)
    (epvs : List ExpressionParameterValue) (ei : ℤ) (fw : ℚ) (i : Nat)
    (d : ExpressionParameterValue)
    (hav : mqe.available = true)
    (hres : ∀ epv ∈ epvs, ∀ q, epv.parameterId = some q → resolvesPure model q)
    (hi : i < epvs.length) :
    ((calculateExpressionParameters motion model uts mqe epvs ei fw).2.2.2).getD i d =
      (calcExpEntry { motion with fadeWeight := fw } ei model (epvs.getD i d)).2 := by
  simp only [calculateExpressionParameters, hav, Bool.true_eq_false, if_false]
  rw [calcExpLoop_pure { motion with fadeWeight := fw } ei model epvs hres]
  exact getD_map_of_lt _ epvs i hi d d

/-- C2: with `expressionIndex = 0` on an available instance (and every
accumulator id resolvable without registering a new shadow entry), slot `i`
of the output depends only on the expression asset and the current model
value: a referenced parameter's channels are replaced outright by the
operator-derived triple, an unreferenced parameter's channels are reset to
additive 0, multiply 1, overwrite = current model value — independent of
the accumulator's prior channel values and of the fade weight `fw`. -/
theorem bootstrap_expression_replaces (motion : CubismExpressionMotion)
    (model : CubismModel) (uts : ℚ) (mqe : CubismMotionQueueEntry)
    (epvs : List ExpressionParameterValue) (fw : ℚ) (i : Nat)
    (d : ExpressionParameterValue) (pid : String)
    (hav : mqe.available = true)
    (hres : ∀ epv ∈ epvs, ∀ q, epv.parameterId = some q → resolvesPure model q)
    (hi : i < epvs.length)
    (hpid : (epvs.getD i d).parameterId = some pid) :
    ((calculateExpressionParameters motion model uts mqe epvs 0 fw).2.2.2).getD i d =
      (match List.findIdx? (fun p => decide (p.parameterId = pid)) motion.parameters with
       | some j =>
         ⟨some pid,
          (assetTriple (motion.parameters.getD j default).blendType
            (motion.parameters.getD j default).value (getParameterValueById model pid).1).1,
          (assetTriple (motion.parameters.getD j default).blendType
            (motion.parameters.getD j default).value (getParameterValueById model pid).1).2.1,
          (assetTriple (motion.parameters.getD j default).blendType
            (motion.parameters.getD j default).value (getParameterValueById model pid).1).2.2⟩
       | none =>
         ⟨some pid, 0, 1, (getParameterValueById model pid).1⟩) := by
  rw [calculateExpressionParameters_getD motion model uts mqe epvs 0 fw i d hav hres hi]
  simp only [calcExpEntry, hpid]
  cases hfind : List.findIdx? (fun p => decide (p.parameterId = pid)) motion.parameters with
  | none => simp [DefaultAdditiveValue, DefaultMultiplyValue]
  | some j => simp

/-- C3 (amended): with `expressionIndex > 0` on an available instance, the
additive and multiply channels blend from the accumulator's prior values
(`old*(1-w) + new*w`), but the overwrite channel blends from the current
model value, because the loop first overwrites the stored overwrite channel
with the current model value; at `w = 0` additive/multiply equal the prior
values and overwrite equals the current model value; at `w = 1` every
channel equals the new contribution. -/
theorem later_expression_blend_semantics (motion : CubismExpressionMotion)
    (model : CubismModel) (uts : ℚ) (mqe : CubismMotionQueueEntry)
    (epvs : List ExpressionParameterValue) (ei : ℤ) (fw : ℚ) (i : Nat)
    (d : ExpressionParameterValue) (pid : String)
    (hei : 0 < ei)
    (hav : mqe.available = true)
    (hres : ∀ epv ∈ epvs, ∀ q, epv.parameterId = some q → resolvesPure model q)
    (hi : i < epvs.length)
    (hpid : (epvs.getD i d).parameterId = some pid) :
    ((calculateExpressionParameters motion model uts mqe epvs ei fw).2.2.2).getD i d =
      (match List.findIdx? (fun p => decide (p.parameterId = pid)) motion.parameters with
       | some j =>
         ⟨some pid,
          (epvs.getD i d).additiveValue * (1 - fw) +
            (assetTriple (motion.parameters.getD j default).blendType
              (motion.parameters.getD j default).value
              (getParameterValueById model pid).1).1 * fw,
          (epvs.getD i d).multiplyValue * (1 - fw) +
            (assetTriple (motion.parameters.getD j default).blendType
              (motion.parameters.getD j default).value
              (getParameterValueById model pid).1).2.1 * fw,
          (getParameterValueById model pid).1 * (1 - fw) +
            (assetTriple (motion.parameters.getD j default).blendType
              (motion.parameters.getD j default).value
              (getParameterValueById model pid).1).2.2 * fw⟩
       | none =>
         ⟨some pid,
          (epvs.getD i d).additiveValue * (1 - fw) + DefaultAdditiveValue * fw,
          (epvs.getD i d).multiplyValue * (1 - fw) + DefaultMultiplyValue * fw,
          (getParameterValueById model pid).1 * (1 - fw) +
            (getParameterValueById model pid).1 * fw⟩) := by
  rw [calculateExpressionParameters_getD motion model uts mqe epvs ei fw i d hav hres hi]
  have hne : ¬ ei = 0 := by omega
  simp only [calcExpEntry, hpid]
  cases hfind : List.findIdx? (fun p => decide (p.parameterId = pid)) motion.parameters with
  | none => simp [hne, calculateValue]
  | some j => simp [hne]

/-- A model with one real parameter `P` holding 2 in range `[-10, 10]`
(all entries integral so that kernel evaluation never normalizes a
fraction). -/
def exprModelA : CubismModel :=
  { parameterIds := ["P"], parameterValues := [2], parameterMaximumValues := [10],
    parameterMinimumValues := [-10], savedParameters := [],
    notExistParameterId := [], notExistParameterValues := [],
    partIds := [], partOpacities := [],
    notExistPartId := [], notExistPartOpacities := [],
    isOverwrittenModelMultiplyColors := false, isOverwrittenModelScreenColors := false,
    userMultiplyColors := [], userScreenColors := [],
    drawableMultiplyColors := [], drawableScreenColors := [] }

/-- An expression asset overwriting `P` with 7. -/
def exprMotionA : CubismExpressionMotion :=
  { parameters := [⟨"P", ExpressionBlendType.Overwrite, 7⟩], fadeWeight := 0,
    fadeInSeconds := 1, fadeOutSeconds := 1, offsetSeconds := 0, duration := -1 }

/-- An available, already-started playback instance. -/
def queueEntryA : CubismMotionQueueEntry :=
  { available := true, started := true, startTime := 0, fadeInStartTime := 0, endTime := -1 }

/-- One accumulator entry for `P` whose prior overwrite channel holds 5. -/
def accA : List ExpressionParameterValue := [⟨some "P", 0, 1, 5⟩]

lemma accA_resolves :
    ∀ epv ∈ accA, ∀ q, epv.parameterId = some q → resolvesPure exprModelA q := by
  intro epv hm q hq
  rw [accA, List.mem_singleton] at hm
  subst hm
  have h1 : some "P" = some q := hq
  obtain rfl := Option.some.inj h1
  exact rfl

/-- C3 (counterexample): the model value of `P` is 2, the accumulator's
prior overwrite channel is 5, the expression overwrites `P` with 7 and the
fade weight is 0, at `expressionIndex = 1`. The claim's
`old*(1-w) + new*w` predicts `5*(1-0) + 7*0 = 5`; the code first overwrites
the channel with the current model value, yielding `2*(1-0) + 7*0 = 2`. -/
theorem overwrite_blend_counterexample :
    (((calculateExpressionParameters exprMotionA exprModelA 0 queueEntryA accA 1
        0).2.2.2).getD 0 default).overwriteValue = 2 ∧
    (((calculateExpressionParameters exprMotionA exprModelA 0 queueEntryA accA 1
        0).2.2.2).getD 0 default).overwriteValue ≠ 5 * (1 - 0) + 7 * 0 := by
  have h := calculateExpressionParameters_getD exprMotionA exprModelA 0 queueEntryA accA 1 0 0
    default rfl accA_resolves (by decide)
  have hpid : (accA.getD 0 default).parameterId = some "P" := rfl
  have hfind : List.findIdx? (fun p => decide (p.parameterId = "P"))
      ({ exprMotionA with fadeWeight := (0 : ℚ) } :
        CubismExpressionMotion).parameters = some 0 := rfl
  have hcur : (getParameterValueById exprModelA "P").1 = 2 := rfl
  rw [h]
  simp only [calcExpEntry, hpid, hfind, getParameterValueById]
  norm_num [exprMotionA, assetTriple, getParameterIndex, getParameterValueByIndex,
    exprModelA, recordHas, recordGet, ratIndex, parametersCount, List.getD]

/-- Witness for C2 at the concrete bootstrap blend: the accumulator's prior
channels `(0, 1, 5)` and the fade weight 1/3 do not appear in the result. -/
theorem bootstrap_expression_replaces_witness :
    ((calculateExpressionParameters exprMotionA exprModelA 0 queueEntryA accA 0
        (1/3)).2.2.2).getD 0 default =
      ⟨some "P", DefaultAdditiveValue, DefaultMultiplyValue, 7⟩ :=
  bootstrap_expression_replaces exprMotionA exprModelA 0 queueEntryA accA (1/3) 0 default "P"
    rfl accA_resolves (by decide) rfl

/-- Witness for C3's amended theorem at the concrete later-expression
blend with fade weight 1/3. -/
theorem later_expression_blend_semantics_witness :
    ((calculateExpressionParameters exprMotionA exprModelA 0 queueEntryA accA 1
        (1/3)).2.2.2).getD 0 default =
      ⟨some "P",
       (accA.getD 0 default).additiveValue * (1 - 1/3) + DefaultAdditiveValue * (1/3),
       (accA.getD 0 default).multiplyValue * (1 - 1/3) + DefaultMultiplyValue * (1/3),
       (getParameterValueById exprModelA "P").1 * (1 - 1/3) + 7 * (1/3)⟩ :=
  later_expression_blend_semantics exprMotionA exprModelA 0 queueEntryA accA 1 (1/3) 0 default
    "P" (by omega) rfl accA_resolves (by decide) rfl

lemma calcExpLoop_getD_none (motion : CubismExpressionMotion) (ei : ℤ) :
    ∀ (epvs : List ExpressionParameterValue) (model : CubismModel) (i : Nat)
      (d : ExpressionParameterValue), i < epvs.length →
      (epvs.getD i d).parameterId = none →
      ((calcExpLoop motion ei model epvs).2).getD i d = epvs.getD i d := by
  intro epvs
  induction epvs with
  | nil => intro model i d hi; simp at hi
  | cons epv rest ih =>
    intro model i d hi hnull
    cases i with
    | zero =>
      have h0 : (epv :: rest).getD 0 d = epv := rfl
      rw [h0] at hnull ⊢
      simp [calcExpLoop, calcExpEntry_none motion ei model epv hnull]
    | succ n =>
      have hs : (epv :: rest).getD (n + 1) d = rest.getD n d := List.getD_cons_succ
      rw [hs] at hnull ⊢
      simp only [calcExpLoop, List.getD_cons_succ]
      exact ih (calcExpEntry motion ei model epv).1 n d (by simpa using hi) hnull

/-- C10: an accumulator entry whose `parameterId` is `null` is returned
unchanged by `calculateExpressionParameters`, for every expression index
and every fade weight, whatever the instance state. -/
theorem null_parameter_id_skipped (motion : CubismExpressionMotion) (model : CubismModel)
    (uts : ℚ) (mqe : CubismMotionQueueEntry) (epvs : List ExpressionParameterValue)
    (ei : ℤ) (fw : ℚ) (i : Nat) (d : ExpressionParameterValue)
    (hi : i < epvs.length)
    (hnull : (epvs.getD i d).parameterId = none) :
    ((calculateExpressionParameters motion model uts mqe epvs ei fw).2.2.2).getD i d =
      epvs.getD i d := by
  by_cases hav : mqe.available = false
  · simp [calculateExpressionParameters, hav]
  · simp only [calculateExpressionParameters, hav, Bool.false_eq_true, if_false]
    exact calcExpLoop_getD_none { motion with fadeWeight := fw } ei epvs model i d hi hnull

/-- A one-entry accumulator whose entry has a `null` id. -/
def accNull : List ExpressionParameterValue := [⟨none, 4, 5, 6⟩]

/-- Witness for C10 at a concrete null-id accumulator entry. -/
theorem null_parameter_id_skipped_witness :
    ((calculateExpressionParameters exprMotionA exprModelA 0 queueEntryA accNull 1
        (1/3)).2.2.2).getD 0 default = accNull.getD 0 default :=
  null_parameter_id_skipped exprMotionA exprModelA 0 queueEntryA accNull 1 (1/3) 0 default
    (by decide) rfl

end Cubism
